import Mathlib

/-!
Verification development for the live-document-ocr repository.

The embedded code comes from two source files:
* `api/extract-text.ts` (the Vercel serverless router with the per-provider
  streaming handlers `handleOpenAICompatibleStream`, `handleGeminiStream`,
  the non-streaming text handlers, and the main `handler`), and
* `services/geminiService.ts` (client-side `preprocessImage` binarization and
  the `extractTextFromImageStream` stream consumer).

Conventions of the shallow embedding:
* Byte streams are `List (List Nat)` (one inner list per `reader.read()`).
* `TextDecoder` is modelled by an executable WHATWG UTF-8 decoder; the
  carried state is the pending incomplete byte sequence.  `decode(v, stream:
  true)` keeps the pending bytes; `decode(v)` flushes them to U+FFFD.
* `JSON.parse` is a platform primitive; the stream handlers are parameterized
  by an arbitrary `parse : List Char → Option Json` (`none` = throw), and the
  navigation expressions (`json.choices[0]?.delta?.content`, …) are embedded
  over a small JSON value type.
* The HTTP response object is modelled as a trace of events (`setHeader`,
  `write`, `status(..).send(..)`, `end`); `headersSent` is "some write event
  has occurred", matching Node's lazy header flush.
-/

set_option autoImplicit false
set_option maxRecDepth 100000

namespace LiveOcr

/-- Replacement character U+FFFD emitted by the WHATWG UTF-8 decoder. -/
def replChar : Char := Char.ofNat 0xFFFD

/-- Number of continuation bytes for a valid UTF-8 lead byte
(0xC2–0xDF ↦ 1, 0xE0–0xEF ↦ 2, 0xF0–0xF4 ↦ 3). -/
def utf8NeededFor (b : Nat) : Nat :=
  if b ≤ 0xDF then 1 else if b ≤ 0xEF then 2 else 3

/-- WHATWG lower boundary for the first continuation byte of a lead. -/
def firstContLo (lead : Nat) : Nat :=
  if lead = 0xE0 then 0xA0 else if lead = 0xF0 then 0x90 else 0x80

/-- WHATWG upper boundary for the first continuation byte of a lead. -/
def firstContHi (lead : Nat) : Nat :=
  if lead = 0xED then 0x9F else if lead = 0xF4 then 0x8F else 0xBF

/-- Lower boundary for the `idx`-th continuation byte of `lead`. -/
def contLo (lead idx : Nat) : Nat := if idx = 0 then firstContLo lead else 0x80

/-- Upper boundary for the `idx`-th continuation byte of `lead`. -/
def contHi (lead idx : Nat) : Nat := if idx = 0 then firstContHi lead else 0xBF

/-- Code point assembled from one complete UTF-8 sequence (lead plus
continuations); bytes are below 256 so masking is `%`. -/
def seqCp : List Nat → Nat
  | [b0, b1] => (b0 % 0x20) * 0x40 + b1 % 0x40
  | [b0, b1, b2] => (b0 % 0x10) * 0x1000 + (b1 % 0x40) * 0x40 + b2 % 0x40
  | [b0, b1, b2, b3] =>
      (b0 % 0x8) * 0x40000 + (b1 % 0x40) * 0x1000 + (b2 % 0x40) * 0x40 + b3 % 0x40
  | _ => 0xFFFD

/-- Decoder transition on a byte with empty pending state. -/
def utf8StartByte (b : Nat) : List Nat × List Char :=
  if b ≤ 0x7F then ([], [Char.ofNat b])
  else if 0xC2 ≤ b ∧ b ≤ 0xF4 then ([b], [])
  else ([], [replChar])

/-- One step of the WHATWG UTF-8 decoder: pending incomplete sequence plus
next byte gives new pending state and emitted characters.  A continuation
byte outside its boundaries emits U+FFFD and reprocesses the byte from the
initial state. -/
def utf8Step (p : List Nat) (b : Nat) : List Nat × List Char :=
  match p with
  | [] => utf8StartByte b
  | lead :: conts =>
    if contLo lead conts.length ≤ b ∧ b ≤ contHi lead conts.length then
      if conts.length + 1 = utf8NeededFor lead then
        ([], [Char.ofNat (seqCp (p ++ [b]))])
      else (p ++ [b], [])
    else
      let r := utf8StartByte b
      (r.1, replChar :: r.2)

/-- Run the decoder over a byte chunk from pending state `p`; this is
`decoder.decode(value, stream: true)` — no flush at the end. -/
def utf8DecodeWith (p : List Nat) (bs : List Nat) : List Nat × List Char :=
  bs.foldl (fun acc b =>
    let r := utf8Step acc.1 b
    (r.1, acc.2 ++ r.2)) (p, [])

/-- `decoder.decode(value)` without `stream: true`: decode from the initial
state and flush a trailing incomplete sequence to a single U+FFFD. -/
def utf8DecodeFull (bs : List Nat) : List Char :=
  let r := utf8DecodeWith [] bs
  r.2 ++ (if r.1 = [] then [] else [replChar])

/-- Streaming decode of a whole sequence of reads, threading the pending
state (the decoder is created once and used with `stream: true`). -/
def decodeChunksS (p : List Nat) : List (List Nat) → List Nat × List Char
  | [] => (p, [])
  | c :: cs =>
    let r := utf8DecodeWith p c
    let rest := decodeChunksS r.1 cs
    (rest.1, r.2 ++ rest.2)

/-- UTF-8 bytes of an ASCII string (used to build concrete byte streams). -/
def strBytes (s : String) : List Nat := s.data.map Char.toNat

/-- Minimal JSON value type for the payloads the handlers navigate. -/
inductive Json where
  | null : Json
  | bool : Bool → Json
  | num : Int → Json
  | str : String → Json
  | arr : List Json → Json
  | obj : List (String × Json) → Json

/-- Member access `j.k`: a field of an object, otherwise absent. -/
def Json.getField : Json → String → Option Json
  | .obj fs, k =>
    match fs.find? (fun q => q.1 == k) with
    | some q => some q.2
    | none => none
  | _, _ => none

/-- Index access `j[i]`: an element of an array, otherwise absent. -/
def Json.item : Json → Nat → Option Json
  | .arr xs, i => xs[i]?
  | _, _ => none

/-- The navigation `json.choices[0]?.delta?.content` from
`handleOpenAICompatibleStream` (a TypeError on a missing `choices` is caught
by the same `try` that skips the line, so it is observably `none`). -/
def deltaContent (j : Json) : Option Json :=
  ((((j.getField "choices").bind (fun c => c.item 0)).bind
    (fun c0 => c0.getField "delta")).bind (fun d => d.getField "content"))

/-- The navigation `jsonArray[0]?.candidates?.[0]?.content?.parts?.[0]?.text`
from `handleGeminiStream`. -/
def geminiFirstText (j : Json) : Option Json :=
  (((((j.item 0).bind (fun c => c.getField "candidates")).bind
      (fun cs => cs.item 0)).bind (fun c0 => c0.getField "content")).bind
      (fun ct => ct.getField "parts")).bind
    (fun ps => (ps.item 0).bind (fun p0 => p0.getField "text"))

/-- The characters of the `'data: '` marker tested by
`line.startsWith('data: ')`; `line.substring(6)` drops its 6 characters. -/
def dataTag : List Char := 'd' :: 'a' :: 't' :: 'a' :: ':' :: ' ' :: []

/-- The characters of the `'[DONE]'` sentinel. -/
def doneChars : List Char := '[' :: 'D' :: 'O' :: 'N' :: 'E' :: ']' :: []

/-- JS `String.prototype.trim` on the character list of a line payload. -/
def trimChars (cs : List Char) : List Char :=
  ((cs.dropWhile Char.isWhitespace).reverse.dropWhile Char.isWhitespace).reverse

/-- JS `buffer.split('\n')`: the list of '\n'-separated segments (always
nonempty; the last segment is the text after the final newline). -/
def splitNl : List Char → List (List Char)
  | [] => [[]]
  | c :: cs =>
    if c = '\n' then [] :: splitNl cs
    else
      match splitNl cs with
      | g :: gs => (c :: g) :: gs
      | [] => [[c]]

/-- The per-line body of `handleOpenAICompatibleStream`'s inner `for` loop.
Returns the fragments written by `res.write` (zero or one) and the payloads
handed to `JSON.parse` (zero or one).  A parse failure, a missing/empty
content, or a `res.write` TypeError on non-string content is caught and
skipped, producing no fragment. -/
def processLine (parse : List Char → Option Json) (line : List Char) :
    List String × List (List Char) :=
  if List.isPrefixOf dataTag line then
    let payload := line.drop 6
    if trimChars payload = doneChars then ([], [])
    else
      match parse payload with
      | some j =>
        match deltaContent j with
        | some (Json.str s) => (if s = "" then [] else [s], [payload])
        | some _ => ([], [payload])
        | none => ([], [payload])
      | none => ([], [payload])
  else ([], [])

/-- Process a list of complete lines in order, concatenating the written
fragments and the parsed payloads. -/
def runLines (parse : List Char → Option Json) :
    List (List Char) → List String × List (List Char)
  | [] => ([], [])
  | l :: ls =>
    let r := processLine parse l
    let rest := runLines parse ls
    (r.1 ++ rest.1, r.2 ++ rest.2)

/-- State of `handleOpenAICompatibleStream`'s read loop: the decoder's
pending bytes, the carry-over line `buffer`, and the accumulated observables
(fragments written, payloads parsed). -/
structure SSEState where
  pending : List Nat
  buffer : List Char
  frags : List String
  parsed : List (List Char)
deriving DecidableEq

/-- Initial loop state: fresh decoder, `buffer = ''`. -/
def initSSE : SSEState := ⟨[], [], [], []⟩

/-- One iteration of the read loop of `handleOpenAICompatibleStream`:
`buffer += decoder.decode(value, stream: true)`, `lines = buffer.split('\n')`,
`buffer = lines.pop() || ''`, then the `for` loop over the complete lines. -/
def sseChunk (parse : List Char → Option Json) (st : SSEState)
    (bytes : List Nat) : SSEState :=
  let d := utf8DecodeWith st.pending bytes
  let parts := splitNl (st.buffer ++ d.2)
  let r := runLines parse parts.dropLast
  ⟨d.1, parts.getLastD [], st.frags ++ r.1, st.parsed ++ r.2⟩

/-- The read loop run from a given state over the remaining reads. -/
def sseRunFrom (parse : List Char → Option Json) (st : SSEState) :
    List (List Nat) → SSEState
  | [] => st
  | c :: cs => sseRunFrom parse (sseChunk parse st c) cs

/-- The whole read loop of `handleOpenAICompatibleStream` over the reads of
the upstream body (it ends when `done` is true; whatever remains in `buffer`
and in the decoder state at that point is dropped). -/
def sseRun (parse : List Char → Option Json) (chunks : List (List Nat)) :
    SSEState :=
  sseRunFrom parse initSSE chunks

/-- `chunk.replace(/^data: /, '')` from `handleGeminiStream`. -/
def stripData (cs : List Char) : List Char :=
  if List.isPrefixOf dataTag cs then cs.drop 6 else cs

/-- One iteration of `handleGeminiStream`'s read loop: the read is decoded
without `stream: true`, the whole chunk is parsed as JSON (after stripping a
leading `data: `), and the first candidate's first text part is written; any
parse failure or write error is caught and skipped. -/
def geminiChunk (parse : List Char → Option Json) (bytes : List Nat) :
    List String × List (List Char) :=
  let payload := stripData (utf8DecodeFull bytes)
  match parse payload with
  | some j =>
    match geminiFirstText j with
    | some (Json.str s) => (if s = "" then [] else [s], [payload])
    | some _ => ([], [payload])
    | none => ([], [payload])
  | none => ([], [payload])

/-- The whole read loop of `handleGeminiStream` (fragments written, payloads
parsed), one self-contained unit per read. -/
def geminiRun (parse : List Char → Option Json) :
    List (List Nat) → List String × List (List Char)
  | [] => ([], [])
  | c :: cs =>
    let r := geminiChunk parse c
    let rest := geminiRun parse cs
    (r.1 ++ rest.1, r.2 ++ rest.2)

/-- The read loop of the client's `extractTextFromImageStream`: each read is
decoded with `decoder.decode(value)` (no `stream: true`) and yielded as one
chunk. -/
def clientStreamChunks (reads : List (List Nat)) : List (List Char) :=
  reads.map utf8DecodeFull

/-- The binarization loop of `preprocessImage` (step 3): over the flat RGBA
byte array, `avg = (data[i] + data[i+1] + data[i+2]) / 3` (JS float division;
exact over ℚ here, and the rounding of the double never crosses the 128
boundary since `384 / 3 = 128` is exact), `color = avg > 128 ? 255 : 0`, the
three color channels are set to `color` and `data[i+3]` is left alone. -/
def binarizeData : List Nat → List Nat
  | r :: g :: b :: a :: rest =>
    let color : Nat := if ((r : ℚ) + (g : ℚ) + (b : ℚ)) / 3 > 128 then 255 else 0
    color :: color :: color :: a :: binarizeData rest
  | rest => rest

/-- Group a flat RGBA array into pixels (any trailing partial group, which
cannot occur for real `ImageData`, is ignored). -/
def quads : List Nat → List (Nat × Nat × Nat × Nat)
  | r :: g :: b :: a :: rest => (r, g, b, a) :: quads rest
  | _ => []

/-- The pixel transform performed by the binarization loop. -/
def binarizePixel (q : Nat × Nat × Nat × Nat) : Nat × Nat × Nat × Nat :=
  let color : Nat :=
    if ((q.1 : ℚ) + (q.2.1 : ℚ) + (q.2.2.1 : ℚ)) / 3 > 128 then 255 else 0
  (color, color, color, q.2.2.2)

/-- The three providers the backend can dispatch to. -/
inductive Provider where
  | gemini : Provider
  | deepseek : Provider
  | openai : Provider
deriving DecidableEq

/-- The `switch (body.llm)` of both routes: `'deepseek'` and `'openai'` have
cases of their own, everything else (including an absent field) falls to
`case 'gemini': default:`. -/
def providerOf : Option String → Provider
  | none => Provider.gemini
  | some s =>
    if s = "deepseek" then Provider.deepseek
    else if s = "openai" then Provider.openai
    else Provider.gemini

/-- The three credentials read from `process.env` at request time. -/
structure Env where
  DEEPSEEK_API_KEY : Option String
  OPENAI_API_KEY : Option String
  GEMINI_API_KEY : Option String
deriving DecidableEq

/-- The credential consulted for a provider. -/
def keyFor (env : Env) : Provider → Option String
  | Provider.deepseek => env.DEEPSEEK_API_KEY
  | Provider.openai => env.OPENAI_API_KEY
  | Provider.gemini => env.GEMINI_API_KEY

/-- The message of the error thrown when a provider's credential is absent. -/
def credMsg : Provider → String
  | Provider.deepseek => "DEEPSEEK_API_KEY is not configured."
  | Provider.openai => "OPENAI_API_KEY is not configured."
  | Provider.gemini => "GEMINI_API_KEY is not configured."

/-- The environment-variable name of a provider's credential. -/
def providerKeyName : Provider → String
  | Provider.deepseek => "DEEPSEEK_API_KEY"
  | Provider.openai => "OPENAI_API_KEY"
  | Provider.gemini => "GEMINI_API_KEY"

/-- The URL fetched by the OCR (streaming) branch for each provider; the
Gemini URL carries the key as a query parameter. -/
def ocrUrlOf : Provider → String → String
  | Provider.deepseek, _ => "https://api.deepseek.com/chat/completions"
  | Provider.openai, _ => "https://api.openai.com/v1/chat/completions"
  | Provider.gemini, k =>
      "https://generativelanguage.googleapis.com/v1beta/models/gemini-pro-vision:streamGenerateContent?key="
        ++ k

/-- The URL fetched by the text-task (non-streaming) branch per provider. -/
def textUrlOf : Provider → String → String
  | Provider.deepseek, _ => "https://api.deepseek.com/chat/completions"
  | Provider.openai, _ => "https://api.openai.com/v1/chat/completions"
  | Provider.gemini, k =>
      "https://generativelanguage.googleapis.com/v1beta/models/gemini-1.5-flash:generateContent?key="
        ++ k

/-- Message of the error thrown on a non-success upstream status:
`API error: ${status} ${text}` for the OpenAI-compatible handlers,
`Gemini API error: ${status} ${text}` for the Gemini ones. -/
def upstreamErrMsg : Provider → Nat → String → String
  | Provider.gemini, s, t => "Gemini API error: " ++ toString s ++ " " ++ t
  | _, s, t => "API error: " ++ toString s ++ " " ++ t

/-- Whether the loop terminates with `done: true` or with a rejected read
(connection dropped / unreadable mid-stream). -/
inductive EndKind where
  | done : EndKind
  | dropped : EndKind
deriving DecidableEq

/-- The observable behavior of the (single) upstream `fetch` during one
request: success flag and status, the error-branch `text()` body, the JSON
body used by the non-streaming branch, and the stream of reads followed by
how the stream ends.  `dropMsg` is the message of the read rejection. -/
structure Upstream where
  ok : Bool
  status : Nat
  errText : String
  bodyJson : Json
  chunks : List (List Nat)
  endKind : EndKind
  dropMsg : String

/-- Events the handler performs on the `VercelResponse`. -/
inductive RespEvent where
  | setHeader : String → String → RespEvent
  | writeFrag : String → RespEvent
  | statusSend : Nat → String → RespEvent
  | endResp : RespEvent
deriving DecidableEq

/-- `headersSent` becomes true once a chunk has been written. -/
def isWriteEv : RespEvent → Bool
  | RespEvent.writeFrag _ => true
  | _ => false

/-- Result of running one route: response events emitted so far, URLs
fetched, and the message of an uncaught exception if one was thrown. -/
structure RouteOut where
  events : List RespEvent
  urls : List String
  thrown : Option String
deriving DecidableEq

/-- `handleOpenAICompatibleStream` (apart from the fetch itself, recorded by
the caller): on a non-success status it throws with status and body text
before touching the response; on success it sets the content type, runs the
read loop, and returns normally on `done` or rethrows the read rejection. -/
def openaiStreamEvents (parse : List Char → Option Json) (up : Upstream) :
    List RespEvent × Option String :=
  if up.ok then
    let st := sseRun parse up.chunks
    let evs := RespEvent.setHeader "Content-Type" "text/plain; charset=utf-8"
      :: st.frags.map RespEvent.writeFrag
    match up.endKind with
    | EndKind.done => (evs, none)
    | EndKind.dropped => (evs, some up.dropMsg)
  else ([], some ("API error: " ++ toString up.status ++ " " ++ up.errText))

/-- `handleGeminiStream`, same shape with the Gemini framing and message. -/
def geminiStreamEvents (parse : List Char → Option Json) (up : Upstream) :
    List RespEvent × Option String :=
  if up.ok then
    let r := geminiRun parse up.chunks
    let evs := RespEvent.setHeader "Content-Type" "text/plain; charset=utf-8"
      :: r.1.map RespEvent.writeFrag
    match up.endKind with
    | EndKind.done => (evs, none)
    | EndKind.dropped => (evs, some up.dropMsg)
  else
    ([], some ("Gemini API error: " ++ toString up.status ++ " " ++ up.errText))

/-- The `IMAGE OCR ROUTE` switch of `handler`: pick the provider from
`body.llm`, check its credential (throwing `... is not configured.` before
any fetch), then fetch and stream. -/
def ocrRoute (parse : List Char → Option Json) (env : Env) (up : Upstream)
    (llm : Option String) : RouteOut :=
  match providerOf llm with
  | Provider.deepseek =>
    match env.DEEPSEEK_API_KEY with
    | none => ⟨[], [], some (credMsg Provider.deepseek)⟩
    | some k =>
      let r := openaiStreamEvents parse up
      ⟨r.1, [ocrUrlOf Provider.deepseek k], r.2⟩
  | Provider.openai =>
    match env.OPENAI_API_KEY with
    | none => ⟨[], [], some (credMsg Provider.openai)⟩
    | some k =>
      let r := openaiStreamEvents parse up
      ⟨r.1, [ocrUrlOf Provider.openai k], r.2⟩
  | Provider.gemini =>
    match env.GEMINI_API_KEY with
    | none => ⟨[], [], some (credMsg Provider.gemini)⟩
    | some k =>
      let r := geminiStreamEvents parse up
      ⟨r.1, [ocrUrlOf Provider.gemini k], r.2⟩

/-- `json.choices[0]?.message?.content?.trim() || ''` from
`handleOpenAICompatibleText`; `.error` is an uncaught TypeError (absent or
non-array `choices` makes `choices[0]` throw; non-string, non-null content
makes the `.trim()` call throw). -/
def openaiTextExtract (j : Json) : Except String String :=
  match j.getField "choices" with
  | some (Json.arr cs) =>
    match cs[0]? with
    | none => Except.ok ""
    | some c =>
      match (c.getField "message").bind (fun m => m.getField "content") with
      | some (Json.str s) => Except.ok s.trim
      | some Json.null => Except.ok ""
      | some _ => Except.error "TypeError: trim is not a function"
      | none => Except.ok ""
  | some _ => Except.error "TypeError: cannot index choices"
  | none => Except.error "TypeError: cannot index choices"

/-- `json.candidates?.[0]?.content?.parts?.[0]?.text?.trim() || ''` from
`handleGeminiText` (fully optional-chained). -/
def geminiTextExtract (j : Json) : Except String String :=
  match ((((j.getField "candidates").bind (fun cs => cs.item 0)).bind
      (fun c0 => c0.getField "content")).bind
      (fun ct => ct.getField "parts")).bind
      (fun ps => (ps.item 0).bind (fun p0 => p0.getField "text")) with
  | some (Json.str s) => Except.ok s.trim
  | some Json.null => Except.ok ""
  | some _ => Except.error "TypeError: trim is not a function"
  | none => Except.ok ""

/-- `handleOpenAICompatibleText` after the fetch: throw on a non-success
status, otherwise extract the first choice's trimmed message content. -/
def openaiTextResult (up : Upstream) : Except String String :=
  if up.ok then openaiTextExtract up.bodyJson
  else Except.error ("API error: " ++ toString up.status ++ " " ++ up.errText)

/-- `handleGeminiText` after the fetch. -/
def geminiTextResult (up : Upstream) : Except String String :=
  if up.ok then geminiTextExtract up.bodyJson
  else
    Except.error ("Gemini API error: " ++ toString up.status ++ " " ++ up.errText)

/-- The `TEXT PROCESSING ROUTE` switch of `handler`: pick the provider,
check its credential, call the non-streaming handler, and answer
`res.status(200).send({ result })` on success. -/
def textRoute (env : Env) (up : Upstream) (llm : Option String) : RouteOut :=
  match providerOf llm with
  | Provider.deepseek =>
    match env.DEEPSEEK_API_KEY with
    | none => ⟨[], [], some (credMsg Provider.deepseek)⟩
    | some k =>
      match openaiTextResult up with
      | Except.ok r =>
        ⟨[RespEvent.statusSend 200 r], [textUrlOf Provider.deepseek k], none⟩
      | Except.error m => ⟨[], [textUrlOf Provider.deepseek k], some m⟩
  | Provider.openai =>
    match env.OPENAI_API_KEY with
    | none => ⟨[], [], some (credMsg Provider.openai)⟩
    | some k =>
      match openaiTextResult up with
      | Except.ok r =>
        ⟨[RespEvent.statusSend 200 r], [textUrlOf Provider.openai k], none⟩
      | Except.error m => ⟨[], [textUrlOf Provider.openai k], some m⟩
  | Provider.gemini =>
    match env.GEMINI_API_KEY with
    | none => ⟨[], [], some (credMsg Provider.gemini)⟩
    | some k =>
      match geminiTextResult up with
      | Except.ok r =>
        ⟨[RespEvent.statusSend 200 r], [textUrlOf Provider.gemini k], none⟩
      | Except.error m => ⟨[], [textUrlOf Provider.gemini k], some m⟩

/-- JS truthiness of a request-body string field (`undefined` and `''` are
falsy). -/
def truthyS : Option String → Bool
  | none => false
  | some s => !(s == "")

/-- The request body fields the router inspects. -/
structure ReqBody where
  task : Option String
  text : Option String
  image : Option String
  llm : Option String
deriving DecidableEq

/-- Final response of the handler plus the URLs fetched upstream. -/
structure HandlerOut where
  events : List RespEvent
  urls : List String
deriving DecidableEq

/-- The `catch` block of `handler`: if headers were already sent (some chunk
was written) the connection is closed with a plain `res.end()`, otherwise a
500 JSON error is sent. -/
def finishCatch (r : RouteOut) : HandlerOut :=
  match r.thrown with
  | none => ⟨r.events, r.urls⟩
  | some msg =>
    if r.events.any isWriteEv then ⟨r.events ++ [RespEvent.endResp], r.urls⟩
    else
      ⟨r.events
          ++ [RespEvent.statusSend 500 ("Error processing your request: " ++ msg)],
        r.urls⟩

/-- The main `handler`: 405 for non-POST; text-task mode when `body.task`
and `body.text` are both (truthy) present; else OCR mode when `body.image`
is; else 400 `Invalid request body.`; all wrapped in the catch above.  The
OCR route ends with `res.end()` when the stream completes normally. -/
def handlerM (parse : List Char → Option Json) (env : Env) (up : Upstream)
    (method : String) (b : ReqBody) : HandlerOut :=
  if method = "POST" then
    if truthyS b.task && truthyS b.text then finishCatch (textRoute env up b.llm)
    else if truthyS b.image then
      let r := ocrRoute parse env up b.llm
      match r.thrown with
      | none => ⟨r.events ++ [RespEvent.endResp], r.urls⟩
      | some m => finishCatch ⟨r.events, r.urls, some m⟩
    else ⟨[RespEvent.statusSend 400 "Invalid request body."], []⟩
  else
    ⟨[RespEvent.setHeader "Allow" "POST",
        RespEvent.statusSend 405 "Method Not Allowed"], []⟩

/-! Concrete sample data used by the witnesses: one OpenAI-compatible SSE
frame and one Gemini chunk, with functions that agree with `JSON.parse` on
every payload fed to them in the concrete runs (the sample payloads parse to
the listed values; the remaining payloads occurring in those runs are not
valid JSON, so `JSON.parse` throws, i.e. `none`). -/

/-- Characters of `data: {"choices":[{"delta":{"content":"Hi"}}]}`'s payload. -/
def sampleFramePayload : List Char :=
  "\x7b\"choices\":[\x7b\"delta\":\x7b\"content\":\"Hi\"\x7d\x7d]\x7d".data

/-- The JSON value `JSON.parse` yields for `sampleFramePayload`. -/
def sampleFrameJson : Json :=
  Json.obj [("choices",
    Json.arr [Json.obj [("delta", Json.obj [("content", Json.str "Hi")])]])]

/-- A second frame whose delta content is `!`. -/
def sampleFramePayload2 : List Char :=
  "\x7b\"choices\":[\x7b\"delta\":\x7b\"content\":\"!\"\x7d\x7d]\x7d".data

/-- The JSON value for `sampleFramePayload2`. -/
def sampleFrameJson2 : Json :=
  Json.obj [("choices",
    Json.arr [Json.obj [("delta", Json.obj [("content", Json.str "!")])]])]

/-- Characters of a Gemini stream chunk
`[{"candidates":[{"content":{"parts":[{"text":"é"}]}}]}]`. -/
def sampleGeminiChunk : List Char :=
  "[\x7b\"candidates\":[\x7b\"content\":\x7b\"parts\":[\x7b\"text\":\"é\"\x7d]\x7d\x7d]\x7d]".data

/-- The JSON value `JSON.parse` yields for `sampleGeminiChunk`. -/
def sampleGeminiJson : Json :=
  let part := Json.obj [("text", Json.str "é")]
  let content := Json.obj [("parts", Json.arr [part])]
  let candidate := Json.obj [("content", content)]
  Json.arr [Json.obj [("candidates", Json.arr [candidate])]]

/-- A concrete parse function that agrees with `JSON.parse` on every payload
fed to it in the concrete runs below: the three sample payloads parse to the
listed values, and each remaining payload occurring in those runs is not
valid JSON (so `JSON.parse` throws there, i.e. `none`). -/
def parseSample (p : List Char) : Option Json :=
  if p = sampleFramePayload then some sampleFrameJson
  else if p = sampleFramePayload2 then some sampleFrameJson2
  else if p = sampleGeminiChunk then some sampleGeminiJson
  else none

/-- UTF-8 bytes of the sample Gemini chunk (all ASCII except the two-byte
`é`). -/
def sampleGeminiBytes : List Nat :=
  ((sampleGeminiChunk.map Char.toNat).map
    (fun n => if n ≤ 0x7F then [n] else [0xC0 + n / 0x40, 0x80 + n % 0x40])).flatten

/-- Environment with every credential configured. -/
def envAll : Env := ⟨some "dk", some "ok", some "gk"⟩

/-- Environment with no credential configured. -/
def envNone : Env := ⟨none, none, none⟩

/-- An OCR-mode request body. -/
def bodyOcr (llm : Option String) : ReqBody := ⟨none, none, some "img", llm⟩

/-- A text-task-mode request body. -/
def bodyText (llm : Option String) : ReqBody :=
  ⟨some "title", some "doc", none, llm⟩

/-- A request body that is neither text-task nor OCR mode. -/
def bodyBad : ReqBody := ⟨none, none, none, none⟩

/-- A 401 upstream response with no stream. -/
def up401 : Upstream := ⟨false, 401, "Unauthorized", Json.null, [], EndKind.done, ""⟩

/-! Proof-support definitions: a character-at-a-time reformulation of the
line buffering, and a symbolic description of well-formed SSE streams. -/

/-- The part of the loop state `sseChunk` updates besides the decoder. -/
structure LineSt where
  buf : List Char
  frags : List String
  parsed : List (List Char)
deriving DecidableEq

/-- Character-level reformulation of the line buffering: push a character
onto the carry-over buffer, or process the buffer as one complete line on a
newline. -/
def charStep (parse : List Char → Option Json) (st : LineSt) (c : Char) :
    LineSt :=
  if c = '\n' then
    let r := processLine parse st.buf
    ⟨[], st.frags ++ r.1, st.parsed ++ r.2⟩
  else ⟨st.buf ++ [c], st.frags, st.parsed⟩

/-- Symbolic description of one line of an upstream SSE stream: a line
without the `data: ` marker, a `[DONE]` sentinel line, a well-formed frame
line whose payload carries the delta content `c`, or a frame line whose
payload does not parse as JSON. -/
inductive LineSpec where
  | other : List Char → LineSpec
  | doneLine : List Char → LineSpec
  | frame : List Char → String → LineSpec
  | badLine : List Char → LineSpec
deriving DecidableEq

/-- The characters of a described line. -/
def LineSpec.render : LineSpec → List Char
  | LineSpec.other s => s
  | LineSpec.doneLine p => dataTag ++ p
  | LineSpec.frame p _ => dataTag ++ p
  | LineSpec.badLine p => dataTag ++ p

/-- The fragments the loop writes for a described line. -/
def LineSpec.fragsOf : LineSpec → List String
  | LineSpec.frame _ c => if c = "" then [] else [c]
  | _ => []

/-- The payloads the loop hands to `JSON.parse` for a described line. -/
def LineSpec.parsedOf : LineSpec → List (List Char)
  | LineSpec.frame p _ => [p]
  | LineSpec.badLine p => [p]
  | _ => []

/-- The delta content carried by a described line, if it is a frame. -/
def LineSpec.contentOf : LineSpec → Option String
  | LineSpec.frame _ c => some c
  | _ => none

/-- The payload of a described line, if it is a parsed (frame or malformed)
line. -/
def LineSpec.payloadOf : LineSpec → Option (List Char)
  | LineSpec.frame p _ => some p
  | LineSpec.badLine p => some p
  | _ => none

/-- Side conditions making a `LineSpec` describe its line truthfully for the
given parse function: lines are newline-free, `other` lines lack the
`data: ` marker, `doneLine` payloads trim to `[DONE]`, `frame` payloads
parse to a JSON value whose `choices[0].delta.content` is the stated string,
and `badLine` payloads fail to parse. -/
def LineSpecOK (parse : List Char → Option Json) : LineSpec → Prop
  | LineSpec.other s => List.isPrefixOf dataTag s = false ∧ '\n' ∉ s
  | LineSpec.doneLine p => trimChars p = doneChars ∧ '\n' ∉ p
  | LineSpec.frame p c =>
      (∃ j, parse p = some j ∧ deltaContent j = some (Json.str c))
        ∧ trimChars p ≠ doneChars ∧ '\n' ∉ p
  | LineSpec.badLine p => parse p = none ∧ trimChars p ≠ doneChars ∧ '\n' ∉ p

/-- The text of a stream whose lines are the described ones, each terminated
by a newline. -/
def specText (ls : List LineSpec) : List Char :=
  (ls.map (fun l => l.render ++ ['\n'])).flatten

/-- A stream of data frames with exactly one malformed frame in the middle:
the well-formed frames before and after it are given as (payload, content)
pairs. -/
def frameLines (pre post : List (List Char × String)) (bad : List Char) :
    List LineSpec :=
  pre.map (fun x => LineSpec.frame x.1 x.2)
    ++ LineSpec.badLine bad :: post.map (fun x => LineSpec.frame x.1 x.2)

/-- The fragments the OCR branch writes for a provider (the two
OpenAI-compatible providers share `handleOpenAICompatibleStream`). -/
def ocrFrags (parse : List Char → Option Json) (up : Upstream) :
    Provider → List String
  | Provider.gemini => (geminiRun parse up.chunks).1
  | _ => (sseRun parse up.chunks).frags

/-- The non-streaming text result for a provider. -/
def textResultOf (up : Upstream) : Provider → Except String String
  | Provider.gemini => geminiTextResult up
  | _ => openaiTextResult up

/-- Replace how the upstream stream ends, leaving everything else alone. -/
def withEnd (up : Upstream) (e : EndKind) : Upstream :=
  ⟨up.ok, up.status, up.errText, up.bodyJson, up.chunks, e, up.dropMsg⟩

/-- A described well-formed SSE stream: a blank-ish line, two frames, and
the `[DONE]` sentinel. -/
def sampleLines : List LineSpec :=
  [LineSpec.other [], LineSpec.frame sampleFramePayload "Hi",
    LineSpec.frame sampleFramePayload2 "!", LineSpec.doneLine doneChars]

/-- The bytes of that stream (it is all ASCII). -/
def sampleStreamBytes : List Nat := (specText sampleLines).map Char.toNat

/-- Well-formed frames before the malformed one in the C3 fixture. -/
def mfPre : List (List Char × String) := [(sampleFramePayload, "Hi")]

/-- Well-formed frames after the malformed one in the C3 fixture. -/
def mfPost : List (List Char × String) := [(sampleFramePayload2, "!")]

/-- The payload of the malformed frame (not valid JSON). -/
def mfBad : List Char := "nope".data

/-- The bytes of the stream with one malformed frame. -/
def mfStreamBytes : List Nat :=
  (specText (frameLines mfPre mfPost mfBad)).map Char.toNat

/-- A successful upstream whose stream holds the sample frames and ends the
given way. -/
def upSample (e : EndKind) : Upstream :=
  ⟨true, 200, "", Json.null, [sampleStreamBytes], e, "read error"⟩

/-! ### Lemmas about the line splitter -/

theorem splitNl_ne_nil (cs : List Char) : splitNl cs ≠ [] := by
  induction cs with
  | nil => simp [splitNl]
  | cons c cs ih =>
    unfold splitNl
    by_cases h : c = '\n'
    · simp [h]
    · simp only [h, if_false]
      cases hs : splitNl cs with
      | nil => simp
      | cons g gs => simp

theorem splitNl_no_nl (cs : List Char) (h : '\n' ∉ cs) : splitNl cs = [cs] := by
  induction cs with
  | nil => rfl
  | cons c cs ih =>
    have hc : ¬ c = '\n' := fun hc => h (hc ▸ List.mem_cons_self c cs)
    have hcs : '\n' ∉ cs := fun hm => h (List.mem_cons_of_mem c hm)
    unfold splitNl
    simp only [hc, if_false, ih hcs]

theorem splitNl_append_nl (pre rest : List Char) (h : '\n' ∉ pre) :
    splitNl (pre ++ '\n' :: rest) = pre :: splitNl rest := by
  induction pre with
  | nil => simp [splitNl]
  | cons c pre ih =>
    have hc : ¬ c = '\n' := fun hc => h (hc ▸ List.mem_cons_self c pre)
    have hpre : '\n' ∉ pre := fun hm => h (List.mem_cons_of_mem c hm)
    simp only [List.cons_append, splitNl, hc, if_false, List.append_eq,
      ih hpre]

theorem getLastD_of_ne_nil {α : Type} (l : List α) (h : l ≠ []) (d₁ d₂ : α) :
    l.getLastD d₁ = l.getLastD d₂ := by
  rw [List.getLastD_eq_getLast?, List.getLastD_eq_getLast?]
  cases hl : l.getLast? with
  | none => exact absurd (List.getLast?_eq_none_iff.mp hl) h
  | some x => rfl

theorem splitNl_getLastD_no_nl (cs : List Char) :
    '\n' ∉ (splitNl cs).getLastD [] := by
  induction cs with
  | nil => simp [splitNl]
  | cons c cs ih =>
    unfold splitNl
    by_cases h : c = '\n'
    · simp only [h, if_true, List.getLastD_cons]
      rwa [getLastD_of_ne_nil (splitNl cs) (splitNl_ne_nil cs) [] []]
    · simp only [h, if_false]
      cases hs : splitNl cs with
      | nil => exact absurd hs (splitNl_ne_nil cs)
      | cons g gs =>
        cases gs with
        | nil =>
          have hg : '\n' ∉ g := by
            rw [hs] at ih
            simpa [List.getLastD_cons] using ih
          simp only [List.getLastD_cons, List.getLastD_nil]
          intro hm
          rcases List.mem_cons.mp hm with hm | hm
          · exact h hm.symm
          · exact hg hm
        | cons g2 gs2 =>
          rw [hs] at ih
          simp only [List.getLastD_cons] at ih ⊢
          exact ih

/-! ### The chunked line loop equals the character-level machine -/

theorem foldl_charStep_push (parse : List Char → Option Json)
    (l : List Char) : ∀ (st : LineSt), '\n' ∉ l →
    l.foldl (charStep parse) st = ⟨st.buf ++ l, st.frags, st.parsed⟩ := by
  induction l with
  | nil => intro st _; simp
  | cons c l ih =>
    intro st h
    have hc : ¬ c = '\n' := fun hc => h (hc ▸ List.mem_cons_self c l)
    have hl : '\n' ∉ l := fun hm => h (List.mem_cons_of_mem c hm)
    simp only [List.foldl_cons, charStep, hc, if_false]
    rw [ih _ hl]
    simp

theorem foldl_charStep_split (parse : List Char → Option Json)
    (text : List Char) : ∀ (st : LineSt), '\n' ∉ st.buf →
    text.foldl (charStep parse) st =
      ⟨(splitNl (st.buf ++ text)).getLastD [],
        st.frags ++ (runLines parse (splitNl (st.buf ++ text)).dropLast).1,
        st.parsed ++ (runLines parse (splitNl (st.buf ++ text)).dropLast).2⟩ := by
  induction text with
  | nil =>
    intro st h
    simp only [List.foldl_nil, List.append_nil, splitNl_no_nl st.buf h,
      List.getLastD_cons, List.getLastD_nil, List.dropLast_single, runLines,
      List.append_nil]
  | cons c text ih =>
    intro st h
    by_cases hc : c = '\n'
    · subst hc
      have hcs : charStep parse st '\n'
          = ⟨[], st.frags ++ (processLine parse st.buf).1,
              st.parsed ++ (processLine parse st.buf).2⟩ := by
        simp [charStep]
      simp only [List.foldl_cons, hcs]
      rw [ih _ (by simp)]
      rw [splitNl_append_nl st.buf text h]
      cases hsp : splitNl text with
      | nil => exact absurd hsp (splitNl_ne_nil text)
      | cons a as =>
        simp only [List.nil_append, List.getLastD_cons, List.dropLast_cons₂,
          runLines, List.append_assoc, hsp]
    · simp only [List.foldl_cons, charStep, hc, if_false]
      rw [ih ⟨st.buf ++ [c], st.frags, st.parsed⟩ (by
        simp only [List.mem_append, List.mem_singleton]
        rintro (hm | hm)
        · exact h hm
        · exact hc hm.symm)]
      simp only [List.append_assoc, List.singleton_append]

theorem sseChunk_eq (parse : List Char → Option Json) (st : SSEState)
    (bytes : List Nat) (h : '\n' ∉ st.buffer) :
    sseChunk parse st bytes =
      ⟨(utf8DecodeWith st.pending bytes).1,
        ((utf8DecodeWith st.pending bytes).2.foldl (charStep parse)
            ⟨st.buffer, st.frags, st.parsed⟩).buf,
        ((utf8DecodeWith st.pending bytes).2.foldl (charStep parse)
            ⟨st.buffer, st.frags, st.parsed⟩).frags,
        ((utf8DecodeWith st.pending bytes).2.foldl (charStep parse)
            ⟨st.buffer, st.frags, st.parsed⟩).parsed⟩ := by
  rw [foldl_charStep_split parse _ ⟨st.buffer, st.frags, st.parsed⟩ h]
  rfl

theorem sseChunk_buffer_no_nl (parse : List Char → Option Json)
    (st : SSEState) (bytes : List Nat) :
    '\n' ∉ (sseChunk parse st bytes).buffer :=
  splitNl_getLastD_no_nl _

theorem sseRunFrom_eq (parse : List Char → Option Json)
    (cs : List (List Nat)) : ∀ st : SSEState, '\n' ∉ st.buffer →
    sseRunFrom parse st cs =
      ⟨(decodeChunksS st.pending cs).1,
        ((decodeChunksS st.pending cs).2.foldl (charStep parse)
            ⟨st.buffer, st.frags, st.parsed⟩).buf,
        ((decodeChunksS st.pending cs).2.foldl (charStep parse)
            ⟨st.buffer, st.frags, st.parsed⟩).frags,
        ((decodeChunksS st.pending cs).2.foldl (charStep parse)
            ⟨st.buffer, st.frags, st.parsed⟩).parsed⟩ := by
  induction cs with
  | nil => intro st _; rfl
  | cons c cs ih =>
    intro st h
    show sseRunFrom parse (sseChunk parse st c) cs = _
    rw [ih _ (sseChunk_buffer_no_nl parse st c)]
    rw [sseChunk_eq parse st c h]
    simp only [decodeChunksS, List.foldl_append]

theorem sseRunFrom_append (parse : List Char → Option Json)
    (xs : List (List Nat)) : ∀ (ys : List (List Nat)) (st : SSEState),
    sseRunFrom parse st (xs ++ ys) = sseRunFrom parse (sseRunFrom parse st xs) ys := by
  induction xs with
  | nil => intro ys st; rfl
  | cons x xs ih => intro ys st; exact ih ys (sseChunk parse st x)

theorem sseRunFrom_buffer_no_nl (parse : List Char → Option Json)
    (cs : List (List Nat)) : ∀ st : SSEState, '\n' ∉ st.buffer →
    '\n' ∉ (sseRunFrom parse st cs).buffer := by
  induction cs with
  | nil => intro st h; exact h
  | cons c cs ih =>
    intro st _
    exact ih (sseChunk parse st c) (sseChunk_buffer_no_nl parse st c)

/-! ### Evaluating the loop on described lines -/

theorem tag_isPrefixOf (p : List Char) :
    List.isPrefixOf dataTag (dataTag ++ p) = true := by
  simp [dataTag, List.isPrefixOf]

theorem tag_drop (p : List Char) : (dataTag ++ p).drop 6 = p := rfl

theorem processLine_render (parse : List Char → Option Json) (l : LineSpec)
    (h : LineSpecOK parse l) :
    processLine parse l.render = (l.fragsOf, l.parsedOf) := by
  cases l with
  | other s =>
    simp only [LineSpecOK] at h
    simp [processLine, LineSpec.render, LineSpec.fragsOf, LineSpec.parsedOf,
      h.1]
  | doneLine p =>
    simp only [LineSpecOK] at h
    simp [processLine, LineSpec.render, LineSpec.fragsOf, LineSpec.parsedOf,
      tag_isPrefixOf, tag_drop, h.1]
  | frame p c =>
    simp only [LineSpecOK] at h
    obtain ⟨⟨j, hj, hd⟩, htrim, _⟩ := h
    simp [processLine, LineSpec.render, LineSpec.fragsOf, LineSpec.parsedOf,
      tag_isPrefixOf, tag_drop, htrim, hj, hd]
  | badLine p =>
    simp only [LineSpecOK] at h
    simp [processLine, LineSpec.render, LineSpec.fragsOf, LineSpec.parsedOf,
      tag_isPrefixOf, tag_drop, h.1, h.2.1]

theorem render_no_nl (parse : List Char → Option Json) (l : LineSpec)
    (h : LineSpecOK parse l) : '\n' ∉ l.render := by
  have htag : '\n' ∉ dataTag := by decide
  cases l with
  | other s => exact h.2
  | doneLine p =>
    simp only [LineSpec.render, List.mem_append]
    rintro (hm | hm)
    · exact htag hm
    · exact h.2 hm
  | frame p c =>
    simp only [LineSpec.render, List.mem_append]
    rintro (hm | hm)
    · exact htag hm
    · exact h.2.2 hm
  | badLine p =>
    simp only [LineSpec.render, List.mem_append]
    rintro (hm | hm)
    · exact htag hm
    · exact h.2.2 hm

theorem runLines_render (parse : List Char → Option Json)
    (ls : List LineSpec) (h : ∀ l ∈ ls, LineSpecOK parse l) :
    runLines parse (ls.map LineSpec.render)
      = ((ls.map LineSpec.fragsOf).flatten, (ls.map LineSpec.parsedOf).flatten) := by
  induction ls with
  | nil => rfl
  | cons l ls ih =>
    simp only [List.map_cons, runLines, List.flatten_cons]
    rw [processLine_render parse l (h l (List.mem_cons_self l ls)),
      ih (fun x hx => h x (List.mem_cons_of_mem l hx))]

theorem foldl_charStep_specText (parse : List Char → Option Json)
    (ls : List LineSpec) (h : ∀ l ∈ ls, '\n' ∉ l.render) :
    ∀ (fs : List String) (ps : List (List Char)),
    (specText ls).foldl (charStep parse) ⟨[], fs, ps⟩ =
      ⟨[], fs ++ (runLines parse (ls.map LineSpec.render)).1,
        ps ++ (runLines parse (ls.map LineSpec.render)).2⟩ := by
  induction ls with
  | nil => intro fs ps; simp [specText, runLines]
  | cons l ls ih =>
    intro fs ps
    have hstep : specText (l :: ls) = (l.render ++ ['\n']) ++ specText ls := by
      simp [specText]
    rw [hstep, List.foldl_append, List.foldl_append]
    rw [foldl_charStep_push parse l.render ⟨[], fs, ps⟩
      (h l (List.mem_cons_self l ls))]
    have hnl : ([('\n' : Char)]).foldl (charStep parse)
        ⟨[] ++ l.render, fs, ps⟩
        = ⟨[], fs ++ (processLine parse l.render).1,
            ps ++ (processLine parse l.render).2⟩ := by
      simp [charStep]
    rw [hnl, ih (fun x hx => h x (List.mem_cons_of_mem l hx))]
    simp only [List.map_cons, runLines, List.append_assoc]

theorem sseRun_specLines (parse : List Char → Option Json)
    (chunks : List (List Nat)) (ls : List LineSpec)
    (hdec : (decodeChunksS [] chunks).2 = specText ls)
    (hok : ∀ l ∈ ls, LineSpecOK parse l) :
    (sseRun parse chunks).frags = (ls.map LineSpec.fragsOf).flatten
      ∧ (sseRun parse chunks).parsed = (ls.map LineSpec.parsedOf).flatten := by
  have h1 := sseRunFrom_eq parse chunks initSSE (by simp [initSSE])
  rw [show sseRun parse chunks = sseRunFrom parse initSSE chunks from rfl, h1]
  have h2 : (decodeChunksS initSSE.pending chunks).2 = specText ls := hdec
  rw [h2]
  simp only [initSSE]
  rw [foldl_charStep_specText parse ls
    (fun l hl => render_no_nl parse l (hok l hl)) [] []]
  rw [runLines_render parse ls hok]
  simp

/-! ### No parsed payload ever trims to the `[DONE]` sentinel -/

theorem processLine_parsed_trim (parse : List Char → Option Json)
    (line q : List Char) (hq : q ∈ (processLine parse line).2) :
    trimChars q ≠ doneChars := by
  by_cases h1 : List.isPrefixOf dataTag line
  · by_cases h2 : trimChars (line.drop 6) = doneChars
    · simp [processLine, h1, h2] at hq
    · have hq' : q = line.drop 6 := by
        rcases hp : parse (line.drop 6) with _ | j
        · simp [processLine, h1, h2, hp] at hq; exact hq
        · rcases hd : deltaContent j with _ | v
          · simp [processLine, h1, h2, hp, hd] at hq; exact hq
          · cases v with
            | str s => simp [processLine, h1, h2, hp, hd] at hq; exact hq
            | null => simp [processLine, h1, h2, hp, hd] at hq; exact hq
            | bool b => simp [processLine, h1, h2, hp, hd] at hq; exact hq
            | num n => simp [processLine, h1, h2, hp, hd] at hq; exact hq
            | arr xs => simp [processLine, h1, h2, hp, hd] at hq; exact hq
            | obj fs => simp [processLine, h1, h2, hp, hd] at hq; exact hq
      rw [hq']; exact h2
  · simp [processLine, h1] at hq

theorem runLines_parsed_trim (parse : List Char → Option Json)
    (lines : List (List Char)) (q : List Char)
    (hq : q ∈ (runLines parse lines).2) : trimChars q ≠ doneChars := by
  induction lines with
  | nil => simp [runLines] at hq
  | cons l lines ih =>
    simp only [runLines, List.mem_append] at hq
    rcases hq with hq | hq
    · exact processLine_parsed_trim parse l q hq
    · exact ih hq

theorem sseRunFrom_parsed_trim (parse : List Char → Option Json)
    (cs : List (List Nat)) : ∀ (st : SSEState),
    (∀ q ∈ st.parsed, trimChars q ≠ doneChars) →
    ∀ q ∈ (sseRunFrom parse st cs).parsed, trimChars q ≠ doneChars := by
  induction cs with
  | nil => intro st h; exact h
  | cons c cs ih =>
    intro st h
    refine ih (sseChunk parse st c) ?_
    intro q hq
    simp only [sseChunk, List.mem_append] at hq
    rcases hq with hq | hq
    · exact h q hq
    · exact runLines_parsed_trim parse _ q hq

theorem sseRun_parsed_trim (parse : List Char → Option Json)
    (chunks : List (List Nat)) :
    ∀ q ∈ (sseRun parse chunks).parsed, trimChars q ≠ doneChars :=
  sseRunFrom_parsed_trim parse chunks initSSE (by simp [initSSE])

theorem join_append (xs ys : List String) :
    String.join (xs ++ ys) = String.join xs ++ String.join ys := by
  apply String.ext
  simp [String.join_eq]

theorem join_cons (s : String) (rest : List String) :
    String.join (s :: rest) = s ++ String.join rest := by
  apply String.ext
  simp [String.join_eq]

theorem empty_append_str (s : String) : "" ++ s = s := by
  apply String.ext
  simp

theorem append_empty_str (s : String) : s ++ "" = s := by
  apply String.ext
  simp

theorem join_nil_str : String.join ([] : List String) = "" := rfl

theorem join_flatten_fragsOf (ls : List LineSpec) :
    String.join (ls.map LineSpec.fragsOf).flatten
      = String.join (ls.filterMap LineSpec.contentOf) := by
  induction ls with
  | nil => rfl
  | cons l ls ih =>
    simp only [List.map_cons, List.flatten_cons, join_append, ih]
    cases l with
    | frame p c =>
      by_cases hc : c = ""
      · subst hc
        simp [LineSpec.fragsOf, LineSpec.contentOf, List.filterMap_cons,
          join_cons, empty_append_str, append_empty_str, join_nil_str]
      · simp [LineSpec.fragsOf, LineSpec.contentOf, List.filterMap_cons, hc,
          join_cons, empty_append_str, append_empty_str, join_nil_str]
    | other s =>
      simp [LineSpec.fragsOf, LineSpec.contentOf, List.filterMap_cons,
        join_cons, empty_append_str, append_empty_str, join_nil_str]
    | doneLine p =>
      simp [LineSpec.fragsOf, LineSpec.contentOf, List.filterMap_cons,
        join_cons, empty_append_str, append_empty_str, join_nil_str]
    | badLine p =>
      simp [LineSpec.fragsOf, LineSpec.contentOf, List.filterMap_cons,
        join_cons, empty_append_str, append_empty_str, join_nil_str]

theorem flatten_parsedOf (ls : List LineSpec) :
    (ls.map LineSpec.parsedOf).flatten = ls.filterMap LineSpec.payloadOf := by
  induction ls with
  | nil => rfl
  | cons l ls ih =>
    cases l <;>
      simp [LineSpec.parsedOf, LineSpec.payloadOf, List.filterMap_cons, ih]

theorem flatten_fragsOf_frames (l : List (List Char × String))
    (h : ∀ x ∈ l, x.2 ≠ "") :
    ((l.map (fun x => LineSpec.frame x.1 x.2)).map LineSpec.fragsOf).flatten
      = l.map Prod.snd := by
  induction l with
  | nil => rfl
  | cons x l ih =>
    have hx : x.2 ≠ "" := h x (List.mem_cons_self x l)
    simp only [List.map_cons, List.flatten_cons, LineSpec.fragsOf, hx,
      if_false, ih (fun y hy => h y (List.mem_cons_of_mem x hy))]
    rfl

theorem geminiRun_append (parse : List Char → Option Json)
    (xs : List (List Nat)) : ∀ ys : List (List Nat),
    geminiRun parse (xs ++ ys)
      = ((geminiRun parse xs).1 ++ (geminiRun parse ys).1,
          (geminiRun parse xs).2 ++ (geminiRun parse ys).2) := by
  induction xs with
  | nil => intro ys; simp [geminiRun]
  | cons x xs ih =>
    intro ys
    simp only [List.cons_append, geminiRun, List.append_eq, ih ys,
      List.append_assoc]

theorem geminiChunk_good (parse : List Char → Option Json) (c : List Nat)
    (s : String) (j : Json)
    (hj : parse (stripData (utf8DecodeFull c)) = some j)
    (ht : geminiFirstText j = some (Json.str s)) (hs : s ≠ "") :
    geminiChunk parse c = ([s], [stripData (utf8DecodeFull c)]) := by
  simp [geminiChunk, hj, ht, hs]

theorem geminiChunk_bad (parse : List Char → Option Json) (c : List Nat)
    (hj : parse (stripData (utf8DecodeFull c)) = none) :
    geminiChunk parse c = ([], [stripData (utf8DecodeFull c)]) := by
  simp [geminiChunk, hj]

theorem geminiRun_frames (parse : List Char → Option Json)
    (l : List (List Nat × String))
    (h : ∀ x ∈ l, (∃ j, parse (stripData (utf8DecodeFull x.1)) = some j
        ∧ geminiFirstText j = some (Json.str x.2)) ∧ x.2 ≠ "") :
    (geminiRun parse (l.map Prod.fst)).1 = l.map Prod.snd := by
  induction l with
  | nil => rfl
  | cons x l ih =>
    obtain ⟨⟨j, hj, ht⟩, hs⟩ := h x (List.mem_cons_self x l)
    simp only [List.map_cons, geminiRun,
      geminiChunk_good parse x.1 x.2 j hj ht hs,
      ih (fun y hy => h y (List.mem_cons_of_mem x hy))]
    rfl

/-! ### Claim theorems for the stream relay -/

/-- Claim C1: for every well-formed OpenAI-compatible SSE upstream stream
(one whose streamed decode consists of newline-terminated lines, each either
a non-`data:` line, the `[DONE]` sentinel, or a `data:` frame whose JSON
payload carries a `choices[0].delta.content` string), the concatenation of
the fragments `handleOpenAICompatibleStream` writes equals, in arrival
order, the concatenation of the `delta.content` values of the `data:`
frames other than `[DONE]`; exactly the frame payloads are handed to
`JSON.parse`, and (for every stream whatsoever) no payload whose trimmed
text is `[DONE]` is ever parsed. -/
theorem sse_stream_concat_matches_deltas (parse : List Char → Option Json)
    (chunks : List (List Nat)) (ls : List LineSpec)
    (hdec : (decodeChunksS [] chunks).2 = specText ls)
    (hok : ∀ l ∈ ls, LineSpecOK parse l)
    (_hnb : ∀ p, LineSpec.badLine p ∉ ls) :
    String.join (sseRun parse chunks).frags
        = String.join (ls.filterMap LineSpec.contentOf)
      ∧ (sseRun parse chunks).parsed = ls.filterMap LineSpec.payloadOf
      ∧ ∀ (chunks2 : List (List Nat)),
          ∀ q ∈ (sseRun parse chunks2).parsed, trimChars q ≠ doneChars := by
  obtain ⟨hf, hp⟩ := sseRun_specLines parse chunks ls hdec hok
  refine ⟨?_, ?_, fun chunks2 => sseRun_parsed_trim parse chunks2⟩
  · rw [hf, join_flatten_fragsOf]
  · rw [hp, flatten_parsedOf]

/-- Claim C3: a stream of data frames containing exactly one frame whose
payload fails to parse as JSON yields exactly the fragments of the
well-formed frames — one fewer than the total number of frames, and not
zero when there is at least one well-formed frame; the same holds for the
Gemini relay, where one unparsable read among well-formed reads is skipped
and the others are all emitted (so the loop does not abort). -/
theorem single_malformed_frame_skipped (parse : List Char → Option Json)
    (chunks : List (List Nat)) (pre post : List (List Char × String))
    (bad : List Char) (gpre gpost : List (List Nat × String)) (gbad : List Nat)
    (hdec : (decodeChunksS [] chunks).2 = specText (frameLines pre post bad))
    (hok : ∀ l ∈ frameLines pre post bad, LineSpecOK parse l)
    (hcontent : ∀ x ∈ pre ++ post, x.2 ≠ "")
    (hgem : ∀ x ∈ gpre ++ gpost,
      (∃ j, parse (stripData (utf8DecodeFull x.1)) = some j
          ∧ geminiFirstText j = some (Json.str x.2)) ∧ x.2 ≠ "")
    (hgbad : parse (stripData (utf8DecodeFull gbad)) = none) :
    ((sseRun parse chunks).frags = pre.map Prod.snd ++ post.map Prod.snd
      ∧ (sseRun parse chunks).frags.length + 1 = (frameLines pre post bad).length
      ∧ (pre ++ post ≠ [] → (sseRun parse chunks).frags ≠ []))
    ∧ (geminiRun parse (gpre.map Prod.fst ++ gbad :: gpost.map Prod.fst)).1
        = gpre.map Prod.snd ++ gpost.map Prod.snd := by
  obtain ⟨hf, _⟩ := sseRun_specLines parse chunks (frameLines pre post bad)
    hdec hok
  have hpre : ∀ x ∈ pre, x.2 ≠ "" :=
    fun x hx => hcontent x (List.mem_append_left post hx)
  have hpost : ∀ x ∈ post, x.2 ≠ "" :=
    fun x hx => hcontent x (List.mem_append_right pre hx)
  have hfr : (sseRun parse chunks).frags = pre.map Prod.snd ++ post.map Prod.snd := by
    rw [hf]
    simp only [frameLines, List.map_append, List.map_cons, List.flatten_append,
      List.flatten_cons]
    rw [flatten_fragsOf_frames pre hpre, flatten_fragsOf_frames post hpost]
    rfl
  refine ⟨⟨hfr, ?_, ?_⟩, ?_⟩
  · rw [hfr]
    simp [frameLines]
    omega
  · intro hne
    rw [hfr]
    intro hz
    have : pre = [] ∧ post = [] := by
      constructor <;>
        [exact List.map_eq_nil_iff.mp (List.append_eq_nil.mp hz).1;
         exact List.map_eq_nil_iff.mp (List.append_eq_nil.mp hz).2]
    exact hne (by simp [this.1, this.2])
  · rw [geminiRun_append]
    have hg1 : (geminiRun parse (gpre.map Prod.fst)).1 = gpre.map Prod.snd :=
      geminiRun_frames parse gpre
        (fun x hx => hgem x (List.mem_append_left gpost hx))
    have hg2 : (geminiRun parse (gpost.map Prod.fst)).1 = gpost.map Prod.snd :=
      geminiRun_frames parse gpost
        (fun x hx => hgem x (List.mem_append_right gpre hx))
    show (geminiRun parse (gpre.map Prod.fst)).1
        ++ (geminiRun parse (gbad :: gpost.map Prod.fst)).1 = _
    rw [hg1]
    show _ ++ ((geminiChunk parse gbad).1 ++ (geminiRun parse (gpost.map Prod.fst)).1) = _
    rw [geminiChunk_bad parse gbad hgbad, hg2]
    rfl

/-- Claim C10: when the upstream ends with a `data:` line not terminated by
a newline, that carry-over text is silently discarded — appending a final
read whose decoded text contains no newline changes neither the fragments
written nor the payloads parsed. -/
theorem trailing_data_discarded (parse : List Char → Option Json)
    (chunks : List (List Nat)) (tailChunk : List Nat)
    (h : '\n' ∉ (utf8DecodeWith (sseRun parse chunks).pending tailChunk).2) :
    (sseRun parse (chunks ++ [tailChunk])).frags = (sseRun parse chunks).frags
      ∧ (sseRun parse (chunks ++ [tailChunk])).parsed
          = (sseRun parse chunks).parsed := by
  have hrun : sseRun parse (chunks ++ [tailChunk])
      = sseChunk parse (sseRun parse chunks) tailChunk := by
    rw [sseRun, sseRunFrom_append]
    rfl
  have hbuf : '\n' ∉ (sseRun parse chunks).buffer :=
    sseRunFrom_buffer_no_nl parse chunks initSSE (by simp [initSSE])
  have hno : '\n' ∉ (sseRun parse chunks).buffer
      ++ (utf8DecodeWith (sseRun parse chunks).pending tailChunk).2 := by
    simp only [List.mem_append]
    rintro (hm | hm)
    · exact hbuf hm
    · exact h hm
  rw [hrun]
  simp [sseChunk, splitNl_no_nl _ hno, runLines]

/-- Witness for C1: on the concrete four-line sample stream the handler's
fragments concatenate to `Hi!`. -/
theorem sse_stream_concat_matches_deltas_witness :
    String.join (sseRun parseSample [sampleStreamBytes]).frags = "Hi!" := by
  have h := sse_stream_concat_matches_deltas parseSample [sampleStreamBytes]
    sampleLines (by decide)
    (by
      intro l hl
      simp only [sampleLines, List.mem_cons, List.not_mem_nil, or_false] at hl
      rcases hl with rfl | rfl | rfl | rfl
      · exact ⟨by decide, by decide⟩
      · exact ⟨⟨sampleFrameJson, rfl, rfl⟩, by decide, by decide⟩
      · exact ⟨⟨sampleFrameJson2, rfl, rfl⟩, by decide, by decide⟩
      · exact ⟨by decide, by decide⟩)
    (by intro p hp; simp [sampleLines] at hp)
  exact h.1.trans (by decide)

/-- Witness for C3: the concrete three-frame stream with the middle frame
malformed yields exactly the two good fragments, and the Gemini loop skips
its one bad read. -/
theorem single_malformed_frame_skipped_witness :
    (sseRun parseSample [mfStreamBytes]).frags = ["Hi", "!"] := by
  have h := single_malformed_frame_skipped parseSample [mfStreamBytes]
    mfPre mfPost mfBad [(sampleGeminiBytes, "é")] [] [0x21]
    (by decide)
    (by
      intro l hl
      simp only [frameLines, mfPre, mfPost, mfBad, List.map_cons,
        List.map_nil, List.nil_append, List.singleton_append, List.mem_cons,
        List.not_mem_nil, or_false] at hl
      rcases hl with rfl | rfl | rfl
      · exact ⟨⟨sampleFrameJson, rfl, rfl⟩, by decide, by decide⟩
      · exact ⟨rfl, by decide, by decide⟩
      · exact ⟨⟨sampleFrameJson2, rfl, rfl⟩, by decide, by decide⟩)
    (by decide)
    (by
      intro x hx
      simp only [List.append_nil, List.mem_cons, List.not_mem_nil, or_false]
        at hx
      subst hx
      exact ⟨⟨sampleGeminiJson, rfl, rfl⟩, by decide⟩)
    rfl
  exact h.1.1.trans (by decide)

/-- Witness for C10: appending an unterminated `data: leftover` read to the
sample stream leaves the emitted fragments unchanged. -/
theorem trailing_data_discarded_witness :
    (sseRun parseSample ([sampleStreamBytes] ++ [strBytes "data: leftover"])).frags
      = (sseRun parseSample [sampleStreamBytes]).frags :=
  (trailing_data_discarded parseSample [sampleStreamBytes]
    (strBytes "data: leftover") (by decide)).1

/-- Claim C2 fails on the code (evaluation at the failing input): the
two-byte UTF-8 character `é` split across two reads decodes to `é` when
decoded whole, but `extractTextFromImageStream` and `handleGeminiStream`
call `decoder.decode(value)` without `stream: true`, so each read is flushed
separately: the client loop yields two U+FFFD characters instead of `é`,
and the Gemini relay, fed the sample chunk split inside its `é` (at byte
offset 47), gets two unparsable halves and emits nothing, where the unsplit
chunk emits `é`. -/
theorem split_multibyte_decode_diverges :
    utf8DecodeFull ([0xC3] ++ [0xA9]) = ['é']
      ∧ clientStreamChunks [[0xC3], [0xA9]] = [[replChar], [replChar]]
      ∧ (clientStreamChunks [[0xC3], [0xA9]]).flatten
          ≠ utf8DecodeFull ([0xC3] ++ [0xA9])
      ∧ (geminiRun parseSample [sampleGeminiBytes]).1 = ["é"]
      ∧ (geminiRun parseSample
          [sampleGeminiBytes.take 47, sampleGeminiBytes.drop 47]).1 = [] :=
  ⟨rfl, by decide, by decide, rfl, rfl⟩

/-- Helper for C4: the binarization loop transforms the pixel list
pointwise. -/
theorem quads_binarize : ∀ d : List Nat,
    quads (binarizeData d) = (quads d).map binarizePixel
  | [] => rfl
  | [_] => rfl
  | [_, _] => rfl
  | [_, _, _] => rfl
  | r :: g :: b :: a :: rest => by
    simp only [binarizeData, quads, List.map_cons, binarizePixel,
      quads_binarize rest]

/-- Claim C4: for every pixel buffer, after binarization each pixel's three
color channels are equal and are `255` exactly when the mean of its channel
values before binarization exceeds 128 (else `0`, so each channel is 0 or
255), and the alpha channel is unchanged — this is the pointwise
`binarizePixel` map. -/
theorem binarize_output_channels (d : List Nat) :
    quads (binarizeData d) = (quads d).map binarizePixel
      ∧ ∀ q ∈ quads (binarizeData d),
          (q.1 = 0 ∨ q.1 = 255) ∧ q.2.1 = q.1 ∧ q.2.2.1 = q.1 := by
  refine ⟨quads_binarize d, ?_⟩
  intro q hq
  rw [quads_binarize d] at hq
  obtain ⟨x, _, rfl⟩ := List.mem_map.mp hq
  by_cases hc : ((x.1 : ℚ) + (x.2.1 : ℚ) + (x.2.2.1 : ℚ)) / 3 > 128
  · simp [binarizePixel, hc]
  · simp [binarizePixel, hc]

/-- Witness for C4: a mid-gray pixel above threshold becomes white with its
alpha kept. -/
theorem binarize_output_channels_witness :
    quads (binarizeData [200, 100, 100, 7]) = [(255, 255, 255, 7)] := by
  have h := (binarize_output_channels [200, 100, 100, 7]).1
  rw [h]
  norm_num [quads, binarizePixel]

/-- Claim C7: in either mode, when the selected provider's credential is
absent the handler answers a single 500 JSON error whose message names the
provider's credential, and no upstream URL is ever fetched. -/
theorem missing_credential_rejected_before_fetch
    (parse : List Char → Option Json) (env : Env) (up : Upstream) (b : ReqBody)
    (hmode : (truthyS b.task && truthyS b.text) = true ∨ truthyS b.image = true)
    (hkey : keyFor env (providerOf b.llm) = none) :
    handlerM parse env up "POST" b
      = ⟨[RespEvent.statusSend 500
            ("Error processing your request: " ++ credMsg (providerOf b.llm))],
          []⟩
      ∧ credMsg (providerOf b.llm)
          = providerKeyName (providerOf b.llm) ++ " is not configured." := by
  constructor
  · by_cases hm : (truthyS b.task && truthyS b.text) = true
    · have h1 : handlerM parse env up "POST" b
          = finishCatch (textRoute env up b.llm) := by
        simp [handlerM, hm]
      rw [h1]
      cases hp : providerOf b.llm <;>
        simp only [hp, keyFor] at hkey <;>
        simp [textRoute, hp, hkey, finishCatch, isWriteEv]
    · have hmf : (truthyS b.task && truthyS b.text) = false := by
        simpa using hm
      have him : truthyS b.image = true := hmode.resolve_left hm
      cases hp : providerOf b.llm <;>
        simp only [hp, keyFor] at hkey <;>
        simp [handlerM, hmf, him, ocrRoute, hp, hkey, finishCatch, isWriteEv]
  · cases providerOf b.llm <;> rfl

/-- Witness for C7: an OCR request for `deepseek` with no credentials
configured is rejected with the 500 error naming `DEEPSEEK_API_KEY` and
zero upstream fetches. -/
theorem missing_credential_rejected_before_fetch_witness :
    handlerM parseSample envNone up401 "POST" (bodyOcr (some "deepseek"))
      = ⟨[RespEvent.statusSend 500
            "Error processing your request: DEEPSEEK_API_KEY is not configured."],
          []⟩ := by
  have h := (missing_credential_rejected_before_fetch parseSample envNone
    up401 (bodyOcr (some "deepseek")) (Or.inr (by decide)) (by decide)).1
  exact h.trans (by decide)

/-- Claim C8: when the upstream answers a non-success status in OCR mode,
the handler fails with a 500 error carrying the upstream status and body
text (via the adapter's `API error:`/`Gemini API error:` message), writes no
fragment, and fetches the upstream exactly once (no retry). -/
theorem upstream_error_propagated (parse : List Char → Option Json)
    (env : Env) (up : Upstream) (b : ReqBody) (k : String)
    (htext : (truthyS b.task && truthyS b.text) = false)
    (him : truthyS b.image = true)
    (hkey : keyFor env (providerOf b.llm) = some k)
    (hok : up.ok = false) :
    handlerM parse env up "POST" b
      = ⟨[RespEvent.statusSend 500 ("Error processing your request: "
            ++ upstreamErrMsg (providerOf b.llm) up.status up.errText)],
          [ocrUrlOf (providerOf b.llm) k]⟩
      ∧ (∀ s, RespEvent.writeFrag s ∉ (handlerM parse env up "POST" b).events)
      ∧ (handlerM parse env up "POST" b).urls.length = 1 := by
  have h1 : handlerM parse env up "POST" b
      = ⟨[RespEvent.statusSend 500 ("Error processing your request: "
            ++ upstreamErrMsg (providerOf b.llm) up.status up.errText)],
          [ocrUrlOf (providerOf b.llm) k]⟩ := by
    cases hp : providerOf b.llm <;>
      simp only [hp, keyFor] at hkey <;>
      simp [handlerM, htext, him, ocrRoute, hp, hkey, openaiStreamEvents,
        geminiStreamEvents, hok, finishCatch, isWriteEv, upstreamErrMsg]
  refine ⟨h1, ?_, ?_⟩
  · intro s
    rw [h1]
    simp
  · rw [h1]
    rfl

/-- Witness for C8: a 401 from the deepseek upstream becomes a 500
`API error: 401 Unauthorized` response with one fetch and no fragments. -/
theorem upstream_error_propagated_witness :
    handlerM parseSample envAll up401 "POST" (bodyOcr (some "deepseek"))
      = ⟨[RespEvent.statusSend 500
            "Error processing your request: API error: 401 Unauthorized"],
          ["https://api.deepseek.com/chat/completions"]⟩ := by
  have h := (upstream_error_propagated parseSample envAll up401
    (bodyOcr (some "deepseek")) "dk" (by decide) (by decide) (by decide)
    (by decide)).1
  exact h.trans (by decide)

/-- Counterexample to C9 as stated: on a concrete OCR stream that fails
mid-stream after one fragment has been delivered, the handler's response
trace is identical to the trace of the same stream ending cleanly (the
`catch` block answers a plain `res.end()` once headers are sent), so the
caller cannot distinguish the failure from the normal end-of-stream
signal. -/
theorem midstream_error_clean_end_counterexample :
    handlerM parseSample envAll (upSample EndKind.dropped) "POST"
        (bodyOcr (some "deepseek"))
      = handlerM parseSample envAll (upSample EndKind.done) "POST"
        (bodyOcr (some "deepseek"))
    ∧ (handlerM parseSample envAll (upSample EndKind.dropped) "POST"
        (bodyOcr (some "deepseek"))).events.any isWriteEv = true := by
  exact ⟨by decide, by decide⟩

/-- Claim C9 as amended: once at least one fragment has been written, a
mid-stream upstream failure ends the response with the same clean `end`
signal as normal completion — the delivered fragments stand and the traces
of the dropped and cleanly-ended streams are equal, so the error is not
distinguishable by the caller (only a failure before the first fragment
produces a distinguishable 500 error). -/
theorem midstream_error_indistinguishable (parse : List Char → Option Json)
    (env : Env) (up : Upstream) (b : ReqBody) (k : String)
    (htext : (truthyS b.task && truthyS b.text) = false)
    (him : truthyS b.image = true)
    (hkey : keyFor env (providerOf b.llm) = some k)
    (hok : up.ok = true)
    (hfr : ocrFrags parse up (providerOf b.llm) ≠ []) :
    handlerM parse env (withEnd up EndKind.dropped) "POST" b
        = handlerM parse env (withEnd up EndKind.done) "POST" b
      ∧ handlerM parse env (withEnd up EndKind.dropped) "POST" b
          = ⟨RespEvent.setHeader "Content-Type" "text/plain; charset=utf-8"
              :: (ocrFrags parse up (providerOf b.llm)).map RespEvent.writeFrag
              ++ [RespEvent.endResp],
            [ocrUrlOf (providerOf b.llm) k]⟩ := by
  have hwr : ∀ fr : List String, fr ≠ [] →
      ((RespEvent.setHeader "Content-Type" "text/plain; charset=utf-8"
        :: fr.map RespEvent.writeFrag).any isWriteEv) = true := by
    intro fr hne
    cases fr with
    | nil => exact absurd rfl hne
    | cons s fr => simp [isWriteEv]
  cases hp : providerOf b.llm <;>
    simp only [hp, keyFor] at hkey <;>
    simp only [hp, ocrFrags] at hfr <;>
    constructor <;>
    simp [handlerM, htext, him, ocrRoute, hp, hkey, openaiStreamEvents,
      geminiStreamEvents, withEnd, hok, finishCatch, hwr _ hfr, ocrFrags]

/-- Witness for the amended C9: the concrete dropped stream's trace equals
the cleanly-ended one's. -/
theorem midstream_error_indistinguishable_witness :
    handlerM parseSample envAll (withEnd (upSample EndKind.dropped) EndKind.dropped)
        "POST" (bodyOcr (some "deepseek"))
      = handlerM parseSample envAll (withEnd (upSample EndKind.dropped) EndKind.done)
        "POST" (bodyOcr (some "deepseek")) :=
  (midstream_error_indistinguishable parseSample envAll
    (upSample EndKind.dropped) (bodyOcr (some "deepseek")) "dk" (by decide)
    (by decide) (by decide) rfl (by decide)).1

/-- Claim C6: when `llm` is absent or not `deepseek`/`openai`, the provider
switch falls to its `gemini` default in both modes: the Gemini credential is
the one checked (its absence yields the Gemini 500 error with no fetch), and
with it configured the fetched URL is the Gemini endpoint of the mode. -/
theorem router_defaults_to_gemini (parse : List Char → Option Json)
    (env : Env) (up : Upstream) (b : ReqBody)
    (hllm : ∀ s, b.llm = some s → s ≠ "deepseek" ∧ s ≠ "openai") :
    providerOf b.llm = Provider.gemini
      ∧ ((truthyS b.task && truthyS b.text) = true →
          env.GEMINI_API_KEY = none →
          handlerM parse env up "POST" b
            = ⟨[RespEvent.statusSend 500 ("Error processing your request: "
                  ++ credMsg Provider.gemini)], []⟩)
      ∧ ((truthyS b.task && truthyS b.text) = true →
          ∀ k, env.GEMINI_API_KEY = some k →
          (handlerM parse env up "POST" b).urls = [textUrlOf Provider.gemini k])
      ∧ ((truthyS b.task && truthyS b.text) = false → truthyS b.image = true →
          env.GEMINI_API_KEY = none →
          handlerM parse env up "POST" b
            = ⟨[RespEvent.statusSend 500 ("Error processing your request: "
                  ++ credMsg Provider.gemini)], []⟩)
      ∧ ((truthyS b.task && truthyS b.text) = false → truthyS b.image = true →
          ∀ k, env.GEMINI_API_KEY = some k →
          (handlerM parse env up "POST" b).urls = [ocrUrlOf Provider.gemini k]) := by
  have hp : providerOf b.llm = Provider.gemini := by
    cases hb : b.llm with
    | none => rfl
    | some s =>
      obtain ⟨h1, h2⟩ := hllm s hb
      simp [providerOf, h1, h2]
  refine ⟨hp, ?_, ?_, ?_, ?_⟩
  · intro hm hkey
    simp [handlerM, hm, textRoute, hp, hkey, finishCatch, isWriteEv]
  · intro hm k hkey
    rcases hr : geminiTextResult up with r | m <;>
      simp [handlerM, hm, textRoute, hp, hkey, hr, finishCatch, isWriteEv]
  · intro hm him hkey
    simp [handlerM, hm, him, ocrRoute, hp, hkey, finishCatch, isWriteEv]
  · intro hm him k hkey
    rcases hq : geminiStreamEvents parse up with ⟨evs, th⟩
    cases th with
    | none => simp [handlerM, hm, him, ocrRoute, hp, hkey, hq, finishCatch]
    | some m =>
      by_cases hw : evs.any isWriteEv <;>
        simp [handlerM, hm, him, ocrRoute, hp, hkey, hq, finishCatch, hw]

/-- Witness for C6: an OCR request with the unknown provider `mistral`
fetches the Gemini streaming endpoint with the configured Gemini key. -/
theorem router_defaults_to_gemini_witness :
    (handlerM parseSample envAll (upSample EndKind.done) "POST"
        (bodyOcr (some "mistral"))).urls
      = [ocrUrlOf Provider.gemini "gk"] := by
  have h := router_defaults_to_gemini parseSample envAll
    (upSample EndKind.done) (bodyOcr (some "mistral"))
    (by intro s hs; injection hs with hs; subst hs; exact ⟨by decide, by decide⟩)
  exact h.2.2.2.2 (by decide) (by decide) "gk" rfl

/-- Claim C5: the handler enters text-task mode exactly when both `task` and
`text` are (truthy) present, OCR mode exactly when it is not in text-task
mode and `image` is present, and otherwise answers the 400
`Invalid request body.` JSON error without any upstream fetch. -/
theorem router_mode_dispatch (parse : List Char → Option Json) (env : Env)
    (up : Upstream) (b : ReqBody) :
    ((truthyS b.task && truthyS b.text) = false → truthyS b.image = false →
      handlerM parse env up "POST" b
        = ⟨[RespEvent.statusSend 400 "Invalid request body."], []⟩)
    ∧ ((truthyS b.task && truthyS b.text) = true →
        ∀ k r, keyFor env (providerOf b.llm) = some k → up.ok = true →
        textResultOf up (providerOf b.llm) = Except.ok r →
        handlerM parse env up "POST" b
          = ⟨[RespEvent.statusSend 200 r], [textUrlOf (providerOf b.llm) k]⟩)
    ∧ ((truthyS b.task && truthyS b.text) = false → truthyS b.image = true →
        ∀ k, keyFor env (providerOf b.llm) = some k → up.ok = true →
        up.endKind = EndKind.done →
        handlerM parse env up "POST" b
          = ⟨RespEvent.setHeader "Content-Type" "text/plain; charset=utf-8"
              :: (ocrFrags parse up (providerOf b.llm)).map RespEvent.writeFrag
              ++ [RespEvent.endResp],
            [ocrUrlOf (providerOf b.llm) k]⟩) := by
  refine ⟨?_, ?_, ?_⟩
  · intro hm him
    simp [handlerM, hm, him]
  · intro hm k r hkey hok hres
    cases hp : providerOf b.llm <;>
      simp only [hp, keyFor] at hkey <;>
      simp only [hp, textResultOf, openaiTextResult, geminiTextResult, hok,
        if_true] at hres <;>
      simp [handlerM, hm, textRoute, hp, hkey, openaiTextResult,
        geminiTextResult, hok, hres, finishCatch]
  · intro hm him k hkey hok hend
    cases hp : providerOf b.llm <;>
      simp only [hp, keyFor] at hkey <;>
      simp [handlerM, hm, him, ocrRoute, hp, hkey, openaiStreamEvents,
        geminiStreamEvents, hok, hend, finishCatch, ocrFrags]

/-- Witness for C5: a body with neither a `task`+`text` pair nor an `image`
is rejected with the 400 error and no fetch. -/
theorem router_mode_dispatch_witness :
    handlerM parseSample envAll up401 "POST" bodyBad
      = ⟨[RespEvent.statusSend 400 "Invalid request body."], []⟩ :=
  (router_mode_dispatch parseSample envAll up401 bodyBad).1 (by decide)
    (by decide)

end LiveOcr
